import Mathlib

/-!
Shallow embedding of the chat and call modules of the waguan-genz-fn client.

The chat component (`Chat`, source part_004) keeps the displayed message
list, the per-conversation unread counters and preview texts, the selected
conversation and the logged-in user.  Its handlers (`receiveMessage`,
`handleSendMessage`, the conversation-selection effect, `fetchMessages`)
are translated below as pure state-transition functions; calls to the
backend and the socket are rendered as explicit result parameters and an
emitted-event list.

The call component (`VideoCall`, source part_000) is embedded as a small
world structure: refs (`localStreamRef`, `peerConnectionRef`), the mount
flag, the pending `getUserMedia` promise, and ledgers of acquired streams,
stopped streams, created/closed peer connections and applied candidates.
The React effect body, its cleanup, the promise resolutions and the
socket `ice-candidate` delivery are the atomic steps of a trace semantics.
-/

/-- Sender role of a displayed message: `'me' | 'other'` in the source. -/
inductive Sender where
  | me
  | other
  deriving DecidableEq

/-- Displayed message (interface `Message` in part_004): id, text, timestamp, sender. -/
structure Message where
  id : String
  text : String
  timestamp : String
  sender : Sender
  deriving DecidableEq

/-- Payload of a relayed `receiveMessage` socket event (`newMessage` in part_004):
`_id` is the persisted id (possibly absent, modelled as `""` which is falsy in JS),
`userId` the author, `chatId` the pairing identifier, plus text and timestamp. -/
structure WireMessage where
  mongoId : String
  userId : String
  chatId : String
  text : String
  timestamp : String
  deriving DecidableEq

/-- Outbound effects of the chat component: backend requests and socket emissions. -/
inductive ChatEvent where
  | persistMessage (chatId text : String)
  | emitSendMessage (chatId userId text : String)
  | fetchMessagesReq (chatId : String)
  | emitJoinChat (chatId : String)
  | emitUserOnline (userId : String)
  | playMessageSound
  deriving DecidableEq

/-- Lookup in a JS-object-like map, defaulting to `d` (models `obj[k] || d`). -/
def lookupEntry {α : Type} (m : List (String × α)) (k : String) (d : α) : α :=
  match m.find? (fun p => p.1 = k) with
  | some p => p.2
  | none => d

/-- Update of a JS-object-like map (models the spread `{...prev, [k]: v}`). -/
def setEntry {α : Type} (m : List (String × α)) (k : String) (v : α) : List (String × α) :=
  if m.any (fun p => p.1 = k) then m.map (fun p => if p.1 = k then (k, v) else p)
  else m ++ [(k, v)]

/-- State of the `Chat` component (part_004): the logged-in user id (`user?.id`),
the selected conversation counterpart (`selectedChat?.id`), the displayed message
sequence, the input field, and the unread/preview maps keyed by counterpart id. -/
structure ChatState where
  user : Option String
  selectedChat : Option String
  messages : List Message
  messageInput : String
  unreadCounts : List (String × Nat)
  lastMessages : List (String × String)
  deriving DecidableEq

/-- Lexicographic comparison of character sequences by code value, the order
`Array.prototype.sort`'s default comparator induces on strings. -/
def charListLe : List Char → List Char → Bool
  | [], _ => true
  | _ :: _, [] => false
  | a :: as, b :: bs =>
    if a.toNat < b.toNat then true
    else if b.toNat < a.toNat then false
    else charListLe as bs

/-- String order used by the default `sort()` on an array of strings. -/
def jsStrLe (a b : String) : Bool :=
  charListLe a.data b.data

/-- Pairing identifier (`generateChatId` in part_004):
`[userId1, userId2].sort().join('_')`.  The two-element array sort is modelled
by insertion sort under the default string comparator. -/
def generateChatId (userId1 userId2 : String) : String :=
  String.intercalate "_"
    (List.insertionSort (fun a b => jsStrLe a b = true) [userId1, userId2])

/-- Handler of the `receiveMessage` socket event (part_004 lines 107-155).
`now` models `Date.now().toString()`, the fallback id used when `_id` is falsy.
Messages authored by the local user are ignored; otherwise the message is
appended unless a displayed message already carries its `_id`, the unread
counter of its author is incremented when the author is not the selected
counterpart, and the preview text is updated.  A sound event is emitted for
every message from another user. -/
def receiveMessage (s : ChatState) (m : WireMessage) (now : String) :
    ChatState × List ChatEvent :=
  let soundEvents : List ChatEvent :=
    if s.user ≠ some m.userId then [ChatEvent.playMessageSound] else []
  if s.user ≠ some m.userId then
    if s.messages.any (fun msg => msg.id = m.mongoId) then (s, soundEvents)
    else
      let formatted : Message :=
        { id := if m.mongoId = "" then now else m.mongoId
          text := m.text
          timestamp := m.timestamp
          sender := Sender.other }
      let unread' :=
        if s.selectedChat = none ∨ s.selectedChat ≠ some m.userId then
          setEntry s.unreadCounts m.userId (lookupEntry s.unreadCounts m.userId 0 + 1)
        else s.unreadCounts
      ({ s with
          messages := s.messages ++ [formatted]
          unreadCounts := unread'
          lastMessages := setEntry s.lastMessages m.userId m.text },
        soundEvents)
  else (s, soundEvents)

/-- Trim as performed by `String.prototype.trim`: strip leading and trailing
whitespace from the character sequence. -/
def jsTrim (s : String) : String :=
  String.mk (((s.data.dropWhile Char.isWhitespace).reverse.dropWhile
    Char.isWhitespace).reverse)

/-- Handler `handleSendMessage` (part_004 lines 305-342).  The persistence call
`messagesAPI.createMessage` is modelled by the `persist` parameter: `some id`
is a response carrying the canonical `_id`, `none` a thrown error.  On success
the message is appended under the canonical id, the preview is updated, the
input is cleared and a `sendMessage` socket event is emitted; on error the
catch block only logs, so the state is unchanged and nothing is emitted after
the persistence request. -/
def handleSendMessage (s : ChatState) (persist : Option String) (nowTs : String) :
    ChatState × List ChatEvent :=
  match s.user, s.selectedChat with
  | some u, some c =>
    if jsTrim s.messageInput = "" then (s, [])
    else
      let chatId := generateChatId u c
      match persist with
      | none => (s, [ChatEvent.persistMessage chatId s.messageInput])
      | some newId =>
        ({ s with
            messages := s.messages ++
              [{ id := newId, text := s.messageInput, timestamp := nowTs,
                 sender := Sender.me }]
            lastMessages := setEntry s.lastMessages c s.messageInput
            messageInput := "" },
          [ChatEvent.persistMessage chatId s.messageInput,
           ChatEvent.emitSendMessage chatId u s.messageInput])
  | _, _ => (s, [])

/-- Effect body run on `[selectedChat, user]` change (part_004 lines 81-105):
announce presence, and when a chat is selected recompute the pairing id,
request the history, join the room and reset the unread counter of the
selected counterpart to zero. -/
def selectChatEffect (s : ChatState) : ChatState × List ChatEvent :=
  let evOnline : List ChatEvent :=
    match s.user with
    | some u => [ChatEvent.emitUserOnline u]
    | none => []
  match s.user, s.selectedChat with
  | some u, some c =>
    let chatId := generateChatId u c
    ({ s with unreadCounts := setEntry s.unreadCounts c 0 },
      evOnline ++ [ChatEvent.fetchMessagesReq chatId, ChatEvent.emitJoinChat chatId])
  | _, _ => (s, evOnline)

/-- Raw message record as returned by `messagesAPI.getMessages` (part_004
`fetchMessages`): `_id`, author, conversation field, text, and the timestamp
as epoch milliseconds (`new Date(...).getTime()`). -/
structure RawMsg where
  mongoId : String
  userId : String
  chatId : String
  text : String
  timestamp : Nat
  deriving DecidableEq

/-- Predicate `isConversationMessage` from `fetchMessages` (part_004 lines
268-273), with its four (redundant) disjuncts kept as written. -/
def isConversationMessage (u c : String) (msg : RawMsg) : Bool :=
  (msg.userId = u ∧ msg.chatId = c) ∨ (msg.userId = c ∧ msg.chatId = u) ∨
    (msg.chatId = u ∧ msg.userId = c) ∨ (msg.chatId = c ∧ msg.userId = u)

/-- Timestamp order used by the `.sort` comparator in `fetchMessages`. -/
def tsLe (a b : RawMsg) : Prop :=
  a.timestamp ≤ b.timestamp

instance : DecidableRel tsLe := fun a b => Nat.decLe a.timestamp b.timestamp

instance : IsTotal RawMsg tsLe := ⟨fun a b => Nat.le_total a.timestamp b.timestamp⟩

instance : IsTrans RawMsg tsLe := ⟨fun _ _ _ h1 h2 => Nat.le_trans h1 h2⟩

/-- Filter stage of the legacy-format reconciliation in `fetchMessages`
(part_004 lines 262-276): keep an entry of `allMessages` exactly when its
index is the first index carrying its `_id` (the `findIndex` test) and it
pairs the two participants.  The `.filter` callback's `(msg, index, array)`
arguments are rendered with `List.enum`. -/
def legacyFiltered (u c : String) (allMessages : List RawMsg) : List RawMsg :=
  (allMessages.enum.filter (fun p =>
    (allMessages.findIdx (fun m => m.mongoId = p.2.mongoId) = p.1 : Bool) &&
      isConversationMessage u c p.2)).map (fun p => p.2)

/-- Legacy-format reconciliation in `fetchMessages` (part_004 lines 256-284):
concatenate the two per-user query results, filter as above, then sort
ascending by timestamp. -/
def combineOldFormat (u c : String) (r1 r2 : List RawMsg) : List RawMsg :=
  List.insertionSort tsLe (legacyFiltered u c (r1 ++ r2))

/-- Display formatting applied to each fetched record (part_004 lines 291-296):
keep id and text, render the timestamp, and derive the sender role by
comparing the author to the local user id. -/
def displayMsg (u : String) (msg : RawMsg) : Message :=
  { id := msg.mongoId
    text := msg.text
    timestamp := toString msg.timestamp
    sender := if msg.userId = u then Sender.me else Sender.other }

/-- Result of `fetchMessages` (part_004 lines 247-303) on the success path:
the primary query by pairing id is used when nonempty, otherwise the two
legacy per-user query results are reconciled; either way the records are
mapped to display form. -/
def fetchMessages (u c : String) (primary r1 r2 : List RawMsg) : List Message :=
  let response := if primary.length = 0 then combineOldFormat u c r1 r2 else primary
  response.map (displayMsg u)

/-- Model of `String.prototype.padStart(targetLength, '0')` for a one-character
pad: prepend the missing number of pad characters. -/
def padStart (s : String) (targetLength : Nat) (pad : Char) : String :=
  String.mk (List.replicate (targetLength - s.length) pad) ++ s

/-- Duration rendering `formatDuration` (part_000 lines 187-191, identically in
part_001): `minutes:seconds`, each field padded to two characters, minutes
unbounded. -/
def formatDuration (seconds : Nat) : String :=
  let mins := seconds / 60
  let secs := seconds % 60
  padStart (toString mins) 2 '0' ++ ":" ++ padStart (toString secs) 2 '0'

/-- Spec-side rendering of `formatDuration`, written from the specification's
words: the decimal string of `s / 60` left-padded with zeros to at least two
characters, a colon, and the decimal string of `s % 60` likewise padded. -/
def formatDurationSpec (seconds : Nat) : String :=
  (if (Nat.repr (seconds / 60)).length < 2 then "0" ++ Nat.repr (seconds / 60)
    else Nat.repr (seconds / 60)) ++ ":" ++
  (if (Nat.repr (seconds % 60)).length < 2 then "0" ++ Nat.repr (seconds % 60)
    else Nat.repr (seconds % 60))

/-- Value of the `callStatus` prop of `VideoCall` (part_000): there is no
`ended` member; the session ends by unmounting the component. -/
inductive CallStatus where
  | incoming
  | outgoing
  | connected
  deriving DecidableEq

/-- World of one `VideoCall` component instance (part_000) together with a
ledger of the platform resources it touched.  `localStream` and `peerConn`
model `localStreamRef.current` and `peerConnectionRef.current`; handles are
numbered from `nextId`.  `pendingMedia` records an unresolved `getUserMedia`
promise; `mediaRequests` counts `getUserMedia` calls; `alerts` counts calls
to `alert`.  `bufferedCandidates` is the candidate buffer the component would
need for replay: no source line ever writes it. -/
structure VCWorld where
  status : CallStatus
  isVideoCall : Bool
  recipientId : Option String
  mounted : Bool
  listenersOn : Bool
  localStream : Option Nat
  peerConn : Option Nat
  pendingMedia : Bool
  nextId : Nat
  acquiredStreams : List Nat
  stoppedStreams : List Nat
  createdPCs : List Nat
  closedPCs : List Nat
  appliedCandidates : List Nat
  bufferedCandidates : List Nat
  mediaRequests : Nat
  alerts : Nat
  emittedEndCall : Bool
  deriving DecidableEq

/-- Freshly mounted `VideoCall` component, before its effect has run. -/
def initVC (status : CallStatus) (isVideoCall : Bool) (recipientId : Option String) :
    VCWorld :=
  { status := status
    isVideoCall := isVideoCall
    recipientId := recipientId
    mounted := true
    listenersOn := false
    localStream := none
    peerConn := none
    pendingMedia := false
    nextId := 0
    acquiredStreams := []
    stoppedStreams := []
    createdPCs := []
    closedPCs := []
    appliedCandidates := []
    bufferedCandidates := []
    mediaRequests := 0
    alerts := 0
    emittedEndCall := false }

/-- Synchronous part of the `useEffect` body (part_000 lines 32-51): when the
status is `connected` or `incoming`, `initializeMedia()` issues the
`getUserMedia` request (and suspends) and `setupPeerConnection()` creates the
peer connection; afterwards, and in every status, the `offer`/`answer`/
`ice-candidate` socket listeners are registered. -/
def effectRun (w : VCWorld) : VCWorld :=
  let w1 :=
    if w.status = CallStatus.connected ∨ w.status = CallStatus.incoming then
      let wA := { w with pendingMedia := true, mediaRequests := w.mediaRequests + 1 }
      let pcId := wA.nextId
      { wA with
          peerConn := some pcId
          createdPCs := wA.createdPCs ++ [pcId]
          nextId := pcId + 1 }
    else w
  { w1 with listenersOn := true }

/-- Successful resolution of the pending `getUserMedia` promise
(part_000 lines 70-90): the continuation of `initializeMedia` stores the
stream in `localStreamRef` and adds its tracks to the peer connection if one
exists.  It runs whether or not the component is still mounted. -/
def mediaResolveOk (w : VCWorld) : VCWorld :=
  if w.pendingMedia then
    let sId := w.nextId
    { w with
        pendingMedia := false
        localStream := some sId
        acquiredStreams := w.acquiredStreams ++ [sId]
        nextId := sId + 1 }
  else w

/-- Failed resolution of the pending `getUserMedia` promise (part_000 lines
91-94): the catch block logs and alerts; nothing else changes and nothing is
emitted. -/
def mediaResolveErr (w : VCWorld) : VCWorld :=
  if w.pendingMedia then { w with pendingMedia := false, alerts := w.alerts + 1 }
  else w

/-- Effect cleanup at unmount (part_000 lines 53-65): stop the tracks of the
stream currently held in `localStreamRef` (if any), close the peer connection
held in `peerConnectionRef` (if any), and remove the socket listeners. -/
def cleanupRun (w : VCWorld) : VCWorld :=
  { w with
      mounted := false
      listenersOn := false
      stoppedStreams :=
        match w.localStream with
        | some s => w.stoppedStreams ++ [s]
        | none => w.stoppedStreams
      closedPCs :=
        match w.peerConn with
        | some p => w.closedPCs ++ [p]
        | none => w.closedPCs }

/-- Body of `handleIceCandidate` (part_000 lines 150-153): when
`peerConnectionRef.current` is null return immediately — the candidate is
neither applied nor stored anywhere — otherwise `addIceCandidate` applies it. -/
def handleIceCandidate (w : VCWorld) (c : Nat) : VCWorld :=
  match w.peerConn with
  | none => w
  | some _ => { w with appliedCandidates := w.appliedCandidates ++ [c] }

/-- Socket delivery of an `ice-candidate` event to this client: the handler
runs only while the listener is registered. -/
def recvIceCandidate (w : VCWorld) (c : Nat) : VCWorld :=
  if w.listenersOn then handleIceCandidate w c else w

/-- Atomic steps of the `VideoCall` lifecycle trace semantics. -/
inductive VCAct where
  | effect
  | cleanup
  | mediaOk
  | mediaErr
  | recvCand (c : Nat)
  deriving DecidableEq

/-- Interpretation of one atomic step. -/
def vcStep (w : VCWorld) : VCAct → VCWorld
  | VCAct.effect => effectRun w
  | VCAct.cleanup => cleanupRun w
  | VCAct.mediaOk => mediaResolveOk w
  | VCAct.mediaErr => mediaResolveErr w
  | VCAct.recvCand c => recvIceCandidate w c

/-- Run of a sequence of atomic steps. -/
def vcRun (w : VCWorld) (acts : List VCAct) : VCWorld :=
  acts.foldl vcStep w

/-! ### Helper lemmas -/

/-- Totality of the default string comparator. -/
theorem charListLe_total (as bs : List Char) :
    charListLe as bs = true ∨ charListLe bs as = true := by
  induction as generalizing bs with
  | nil => exact Or.inl rfl
  | cons a as ih =>
    cases bs with
    | nil => exact Or.inr rfl
    | cons b bs =>
      by_cases h1 : a.toNat < b.toNat
      · left
        simp [charListLe, h1]
      · by_cases h2 : b.toNat < a.toNat
        · right
          simp [charListLe, h1, h2]
        · have := ih bs
          simpa [charListLe, h1, h2] using this

/-- Antisymmetry of the default string comparator. -/
theorem charListLe_antisymm (as bs : List Char) (h1 : charListLe as bs = true)
    (h2 : charListLe bs as = true) : as = bs := by
  induction as generalizing bs with
  | nil =>
    cases bs with
    | nil => rfl
    | cons b bs => simp [charListLe] at h2
  | cons a as ih =>
    cases bs with
    | nil => simp [charListLe] at h1
    | cons b bs =>
      by_cases hab : a.toNat < b.toNat
      · have hba : ¬ b.toNat < a.toNat := by omega
        simp [charListLe, hab, hba] at h2
      · by_cases hba : b.toNat < a.toNat
        · simp [charListLe, hab, hba] at h1
        · have hc : a = b := Char.ext (UInt32.ext (by
            simp only [Char.toNat] at hab hba
            omega))
          subst hc
          have h1' : charListLe as bs = true := by
            simpa [charListLe, hab, hba] using h1
          have h2' : charListLe bs as = true := by
            simpa [charListLe, hab, hba] using h2
          rw [ih bs h1' h2']

/-- Strings with equal character data are equal. -/
theorem string_eq_of_data_eq (a b : String) (h : a.data = b.data) : a = b := by
  cases a
  cases b
  exact congrArg String.mk h

/-- Lower bound for `Nat.toDigitsCore`: the accumulator never shrinks. -/
theorem length_le_toDigitsCore_length (b : Nat) :
    ∀ (f n : Nat) (ds : List Char), ds.length ≤ (Nat.toDigitsCore b f n ds).length := by
  intro f
  induction f with
  | zero =>
    intro n ds
    simp [Nat.toDigitsCore]
  | succ f ih =>
    intro n ds
    simp only [Nat.toDigitsCore]
    split
    · exact Nat.le_succ _
    · exact Nat.le_trans (Nat.le_succ _) (ih (n / b) (Nat.digitChar (n % b) :: ds))

/-- The decimal representation of a natural number is never empty. -/
theorem one_le_repr_length (n : Nat) : 1 ≤ (Nat.repr n).length := by
  show 1 ≤ (Nat.toDigits 10 n).asString.length
  simp only [Nat.toDigits, List.asString, String.length]
  simp only [Nat.toDigitsCore]
  split
  · simp
  · exact length_le_toDigitsCore_length 10 n (n / 10) [Nat.digitChar (n % 10)]

/-- Behaviour of `padStart _ 2` on nonempty input, phrased the way the
specification words the padding. -/
theorem padStart_two_eq (t : String) (h : 1 ≤ t.length) :
    padStart t 2 '0' = if t.length < 2 then "0" ++ t else t := by
  obtain ⟨l⟩ := t
  have hl : 1 ≤ l.length := h
  by_cases h2 : (String.mk l).length < 2
  · have h2' : l.length < 2 := h2
    have h1 : l.length = 1 := by omega
    rw [if_pos h2]
    apply string_eq_of_data_eq
    show List.replicate (2 - l.length) '0' ++ l = '0' :: l
    rw [h1]
    rfl
  · rw [if_neg h2]
    apply string_eq_of_data_eq
    show List.replicate (2 - l.length) '0' ++ l = l
    have h2' : ¬ l.length < 2 := h2
    have h0 : 2 - l.length = 0 := by omega
    rw [h0]
    rfl

/-- Reading back a key just written by `setEntry` yields the written value. -/
theorem lookupEntry_setEntry {α : Type} (m : List (String × α)) (k : String) (v d : α) :
    lookupEntry (setEntry m k v) k d = v := by
  induction m with
  | nil => simp [setEntry, lookupEntry]
  | cons p m ih =>
    by_cases hp : p.1 = k
    · have hany : (p :: m).any (fun q => q.1 = k) = true := by
        simp [List.any_cons, hp]
      simp only [setEntry, hany, if_true, List.map_cons, if_pos hp]
      simp [lookupEntry]
    · cases hm : m.any (fun q => q.1 = k) with
      | true =>
        have hany : (p :: m).any (fun q => q.1 = k) = true := by
          simp [List.any_cons, hm]
        simp only [setEntry, hany, if_true, List.map_cons, if_neg hp]
        have ih' := ih
        simp only [setEntry, hm, if_true] at ih'
        simpa [lookupEntry, List.find?_cons, hp] using ih'
      | false =>
        have hany : (p :: m).any (fun q => q.1 = k) = false := by
          simp [List.any_cons, hm, hp]
        have ih' := ih
        simp only [setEntry, hm, Bool.false_eq_true, if_false] at ih'
        simp only [setEntry, hany, Bool.false_eq_true, if_false, List.cons_append]
        simpa [lookupEntry, List.find?_cons, hp] using ih'

/-- Relation between `find?` and indexing at `findIdx`. -/
theorem find?_eq_get?_findIdx {α : Type} (p : α → Bool) (L : List α) (m : α) :
    L.find? p = some m ↔ L.get? (L.findIdx p) = some m := by
  induction L with
  | nil => simp
  | cons a l ih =>
    by_cases h : p a
    · simp [List.find?_cons, h, List.findIdx_cons]
    · simp [List.find?_cons, h, List.findIdx_cons, ih]

/-- Indices in `enumFrom` are strictly increasing. -/
theorem pairwise_fst_lt_enumFrom {α : Type} (n : Nat) (L : List α) :
    (L.enumFrom n).Pairwise (fun p q => p.1 < q.1) := by
  induction L generalizing n with
  | nil => simp [List.enumFrom]
  | cons a l ih =>
    simp only [List.enumFrom]
    constructor
    · rintro ⟨i, x⟩ hq
      have := List.mem_enumFrom hq
      simp only at this
      omega
    · exact ih (n + 1)

/-- Indices in `enum` are strictly increasing. -/
theorem pairwise_fst_lt_enum {α : Type} (L : List α) :
    L.enum.Pairwise (fun p q => p.1 < q.1) :=
  pairwise_fst_lt_enumFrom 0 L

/-- Membership in the legacy filter stage: exactly the records that pair the
two participants and are the first occurrence of their id in the union. -/
theorem mem_legacyFiltered_iff (u c : String) (L : List RawMsg) (m : RawMsg) :
    m ∈ legacyFiltered u c L ↔
      (isConversationMessage u c m = true ∧
        L.find? (fun x => x.mongoId = m.mongoId) = some m) := by
  unfold legacyFiltered
  rw [List.mem_map]
  constructor
  · rintro ⟨⟨i, mm⟩, hp, rfl⟩
    rw [List.mem_filter] at hp
    obtain ⟨henum, hpred⟩ := hp
    rw [Bool.and_eq_true] at hpred
    obtain ⟨hidx, hconv⟩ := hpred
    have hidx' := of_decide_eq_true hidx
    refine ⟨hconv, ?_⟩
    rw [find?_eq_get?_findIdx]
    simp only at hidx' ⊢
    rw [hidx']
    exact List.mk_mem_enum_iff_get?.mp henum
  · rintro ⟨hconv, hfind⟩
    refine ⟨(L.findIdx (fun x => x.mongoId = m.mongoId), m), ?_, rfl⟩
    rw [List.mem_filter]
    constructor
    · exact List.mk_mem_enum_iff_get?.mpr ((find?_eq_get?_findIdx _ _ _).mp hfind)
    · rw [Bool.and_eq_true]
      exact ⟨by simp, hconv⟩

/-- The legacy filter stage keeps at most one record per id. -/
theorem pairwise_ne_legacyFiltered (u c : String) (L : List RawMsg) :
    (legacyFiltered u c L).Pairwise (fun a b => a.mongoId ≠ b.mongoId) := by
  unfold legacyFiltered
  rw [List.pairwise_map]
  have hpw : (List.filter (fun p =>
      (L.findIdx (fun m => m.mongoId = p.2.mongoId) = p.1 : Bool) &&
        isConversationMessage u c p.2) L.enum).Pairwise (fun p q => p.1 < q.1) :=
    List.Pairwise.sublist (List.filter_sublist _) (pairwise_fst_lt_enum L)
  refine List.Pairwise.imp_of_mem ?_ hpw
  intro a b ha hb hlt heq
  have h1 := List.of_mem_filter ha
  have h2 := List.of_mem_filter hb
  rw [Bool.and_eq_true] at h1 h2
  have hidx1 := of_decide_eq_true h1.1
  have hidx2 := of_decide_eq_true h2.1
  simp only [heq] at hidx1
  omega

/-- Count of displayed messages carrying a given id. -/
def countId (i : String) (l : List Message) : Nat :=
  l.countP (fun msg => msg.id = i)

/-- A `receiveMessage` delivery whose id is already displayed leaves the
count of that id unchanged (the duplicate is dropped). -/
theorem receiveMessage_countId_eq (s : ChatState) (m : WireMessage) (now : String)
    (h : 1 ≤ countId m.mongoId s.messages) :
    countId m.mongoId ((receiveMessage s m now).1.messages) =
      countId m.mongoId s.messages := by
  have hany : s.messages.any (fun msg => msg.id = m.mongoId) = true := by
    rw [List.any_eq_true]
    have hpos : 0 < s.messages.countP (fun msg => decide (msg.id = m.mongoId)) := h
    rw [List.countP_pos] at hpos
    obtain ⟨a, ha, hpa⟩ := hpos
    exact ⟨a, ha, hpa⟩
  by_cases hu : s.user ≠ some m.userId
  · simp [receiveMessage, hu, hany]
  · simp [receiveMessage, hu]

/-- The effect body never touches the applied-candidate ledger. -/
theorem appliedCandidates_effectRun (w : VCWorld) :
    (effectRun w).appliedCandidates = w.appliedCandidates := by
  unfold effectRun
  by_cases h : w.status = CallStatus.connected ∨ w.status = CallStatus.incoming
  · simp [h]
  · simp [h]

/-- Resolving `getUserMedia` never touches the applied-candidate ledger. -/
theorem appliedCandidates_mediaResolveOk (w : VCWorld) :
    (mediaResolveOk w).appliedCandidates = w.appliedCandidates := by
  unfold mediaResolveOk
  split
  · rfl
  · rfl

/-- A failing `getUserMedia` never touches the applied-candidate ledger. -/
theorem appliedCandidates_mediaResolveErr (w : VCWorld) :
    (mediaResolveErr w).appliedCandidates = w.appliedCandidates := by
  unfold mediaResolveErr
  split
  · rfl
  · rfl

/-- Delivering a different candidate never applies `c`. -/
theorem recvIceCandidate_not_applied (w : VCWorld) (c c' : Nat)
    (hw : c ∉ w.appliedCandidates) (hne : c' ≠ c) :
    c ∉ (recvIceCandidate w c').appliedCandidates := by
  unfold recvIceCandidate handleIceCandidate
  by_cases hl : w.listenersOn = true
  · rw [if_pos hl]
    cases hpc : w.peerConn with
    | none => exact hw
    | some p =>
      intro hmem
      rcases List.mem_append.mp hmem with h | h
      · exact hw h
      · rw [List.mem_singleton] at h
        exact hne h.symm
  · rw [if_neg hl]
    exact hw

/-- Across any continuation that never redelivers candidate `c`, the code
never applies `c`: there is no buffer to replay it from. -/
theorem vcRun_candidate_never_applied (c : Nat) (acts : List VCAct) :
    ∀ w : VCWorld, c ∉ w.appliedCandidates → VCAct.recvCand c ∉ acts →
      c ∉ (vcRun w acts).appliedCandidates := by
  induction acts with
  | nil =>
    intro w hw _
    exact hw
  | cons a acts ih =>
    intro w hw ha
    have ha1 : a ≠ VCAct.recvCand c := by
      intro hEq
      exact ha (hEq ▸ List.mem_cons_self a acts)
    have ha2 : VCAct.recvCand c ∉ acts := fun h => ha (List.mem_cons_of_mem a h)
    have hstep : c ∉ (vcStep w a).appliedCandidates := by
      cases a with
      | effect =>
        rw [vcStep, appliedCandidates_effectRun]
        exact hw
      | cleanup => exact hw
      | mediaOk =>
        rw [vcStep, appliedCandidates_mediaResolveOk]
        exact hw
      | mediaErr =>
        rw [vcStep, appliedCandidates_mediaResolveErr]
        exact hw
      | recvCand c' =>
        refine recvIceCandidate_not_applied w c c' hw ?_
        intro hEq
        exact ha1 (by rw [hEq])
    exact ih (vcStep w a) hstep ha2

/-- Nat rendering used by `toString` coincides with `Nat.repr`. -/
theorem toString_nat_eq (n : Nat) : toString n = Nat.repr n := rfl

/-! ### Claim theorems -/

/-- C3: for every pair of user ids, the pairing identifier computed by
`generateChatId` is the same in both argument orders. -/
theorem generateChatId_comm (a b : String) :
    generateChatId a b = generateChatId b a := by
  unfold generateChatId
  simp only [List.insertionSort, List.orderedInsert]
  by_cases hab : jsStrLe a b = true
  · by_cases hba : jsStrLe b a = true
    · have hEq : a = b := string_eq_of_data_eq a b (charListLe_antisymm _ _ hab hba)
      rw [hEq]
    · simp [hab, hba]
  · have hba : jsStrLe b a = true :=
      (charListLe_total a.data b.data).resolve_left hab
    simp [hab, hba]

/-- C3 witness: both orders of a concrete pair agree. -/
theorem generateChatId_comm_witness :
    generateChatId "u1" "u2" = generateChatId "u2" "u1" :=
  generateChatId_comm "u1" "u2"

/-- C10: `formatDuration` renders `s div 60` and `s mod 60` as decimal strings
left-padded with zeros to two characters, joined by a colon, and minutes are
never wrapped at 60: 3600 seconds renders as `60:00`. -/
theorem formatDuration_pads_div_mod :
    (∀ s : Nat, formatDuration s = formatDurationSpec s) ∧
      formatDuration 3600 = "60:00" := by
  constructor
  · intro s
    show padStart (toString (s / 60)) 2 '0' ++ ":" ++ padStart (toString (s % 60)) 2 '0' =
      formatDurationSpec s
    unfold formatDurationSpec
    rw [padStart_two_eq (toString (s / 60)) (one_le_repr_length (s / 60)),
      padStart_two_eq (toString (s % 60)) (one_le_repr_length (s % 60))]
    simp only [toString_nat_eq]
  · decide

/-- Concrete chat state used by witnesses: user `u1` chatting with `u2`, input
`hi`, nothing displayed yet. -/
def sendState : ChatState :=
  { user := some "u1"
    selectedChat := some "u2"
    messages := []
    messageInput := "hi"
    unreadCounts := []
    lastMessages := [] }

/-- C4: a message persisted and echoed locally under its canonical id, then
redelivered as a relayed `receiveMessage` event carrying the same id, is
displayed exactly once. -/
theorem sendEcho_then_relay_displayed_once (s : ChatState) (u c ts now : String)
    (wm : WireMessage) (hu : s.user = some u) (hc : s.selectedChat = some c)
    (hne : ¬ jsTrim s.messageInput = "")
    (h0 : countId wm.mongoId s.messages = 0) :
    countId wm.mongoId ((handleSendMessage s (some wm.mongoId) ts).1.messages) = 1 ∧
    countId wm.mongoId
      ((receiveMessage (handleSendMessage s (some wm.mongoId) ts).1 wm
        now).1.messages) = 1 := by
  have h1 : countId wm.mongoId
      ((handleSendMessage s (some wm.mongoId) ts).1.messages) = 1 := by
    simp only [handleSendMessage, hu, hc, hne, if_false, ite_false]
    unfold countId at h0 ⊢
    rw [List.countP_append, h0]
    simp
  refine ⟨h1, ?_⟩
  rw [receiveMessage_countId_eq _ _ _ (le_of_eq h1.symm)]
  exact h1

/-- C4 witness: the scenario at a concrete state and message id `m100`. -/
theorem sendEcho_then_relay_displayed_once_witness :
    countId "m100" ((handleSendMessage sendState (some "m100") "t0").1.messages) = 1 ∧
    countId "m100"
      ((receiveMessage (handleSendMessage sendState (some "m100") "t0").1
        { mongoId := "m100", userId := "u1", chatId := "u1_u2", text := "hi",
          timestamp := "t0" } "n0").1.messages) = 1 :=
  sendEcho_then_relay_displayed_once sendState "u1" "u2" "t0" "n0"
    { mongoId := "m100", userId := "u1", chatId := "u1_u2", text := "hi",
      timestamp := "t0" } rfl rfl (by decide) (by decide)

/-- Concrete chat state for the foreign-conversation delivery: user `u1` has
conversation `u2` open. -/
def openU2State : ChatState :=
  { user := some "u1"
    selectedChat := some "u2"
    messages := []
    messageInput := ""
    unreadCounts := []
    lastMessages := [] }

/-- Relayed message from `u3`, a conversation that is not open. -/
def fromU3Wire : WireMessage :=
  { mongoId := "m9"
    userId := "u3"
    chatId := "u1_u3"
    text := "yo"
    timestamp := "t1" }

/-- C5: a relayed message that does not target the open conversation is
nevertheless appended to the displayed sequence (while that conversation's
unread counter is also incremented) — the handler appends unconditionally. -/
theorem receiveMessage_appends_foreign_conversation :
    (receiveMessage openU2State fromU3Wire "n0").1.messages =
      [{ id := "m9", text := "yo", timestamp := "t1", sender := Sender.other }] ∧
    lookupEntry (receiveMessage openU2State fromU3Wire "n0").1.unreadCounts "u3" 0
      = 1 := by
  decide

/-- C7: a send persists first (exactly one persistence request, emitted before
anything else); on success the message is displayed under the canonical id
and broadcast, on failure the state is unchanged and nothing is broadcast. -/
theorem handleSendMessage_persist_first (s : ChatState) (u c ts : String)
    (hu : s.user = some u) (hc : s.selectedChat = some c)
    (hne : ¬ jsTrim s.messageInput = "") :
    handleSendMessage s none ts =
      (s, [ChatEvent.persistMessage (generateChatId u c) s.messageInput]) ∧
    (∀ mid : String, handleSendMessage s (some mid) ts =
      ({ s with
          messages := s.messages ++
            [{ id := mid, text := s.messageInput, timestamp := ts,
               sender := Sender.me }]
          lastMessages := setEntry s.lastMessages c s.messageInput
          messageInput := "" },
        [ChatEvent.persistMessage (generateChatId u c) s.messageInput,
         ChatEvent.emitSendMessage (generateChatId u c) u s.messageInput])) := by
  constructor
  · simp [handleSendMessage, hu, hc, hne]
  · intro mid
    simp [handleSendMessage, hu, hc, hne]

/-- C7 witness: both persistence outcomes at a concrete state. -/
theorem handleSendMessage_persist_first_witness :
    handleSendMessage sendState none "t0" =
      (sendState, [ChatEvent.persistMessage (generateChatId "u1" "u2") "hi"]) ∧
    (∀ mid : String, handleSendMessage sendState (some mid) "t0" =
      ({ sendState with
          messages := sendState.messages ++
            [{ id := mid, text := "hi", timestamp := "t0", sender := Sender.me }]
          lastMessages := setEntry sendState.lastMessages "u2" "hi"
          messageInput := "" },
        [ChatEvent.persistMessage (generateChatId "u1" "u2") "hi",
         ChatEvent.emitSendMessage (generateChatId "u1" "u2") "u1" "hi"])) :=
  handleSendMessage_persist_first sendState "u1" "u2" "t0" rfl rfl (by decide)

/-- C8: selecting a conversation resets its unread counter to zero and
requests the history under the recomputed pairing identifier. -/
theorem selectChat_resets_unread_and_fetches (s : ChatState) (u c : String)
    (hu : s.user = some u) (hc : s.selectedChat = some c) :
    lookupEntry (selectChatEffect s).1.unreadCounts c 0 = 0 ∧
    (selectChatEffect s).2 =
      [ChatEvent.emitUserOnline u,
       ChatEvent.fetchMessagesReq (generateChatId u c),
       ChatEvent.emitJoinChat (generateChatId u c)] := by
  constructor
  · simp only [selectChatEffect, hu, hc]
    exact lookupEntry_setEntry s.unreadCounts c 0 0
  · simp [selectChatEffect, hu, hc]

/-- C8 witness: selecting `u2` at a concrete state. -/
theorem selectChat_resets_unread_and_fetches_witness :
    lookupEntry (selectChatEffect sendState).1.unreadCounts "u2" 0 = 0 ∧
    (selectChatEffect sendState).2 =
      [ChatEvent.emitUserOnline "u1",
       ChatEvent.fetchMessagesReq (generateChatId "u1" "u2"),
       ChatEvent.emitJoinChat (generateChatId "u1" "u2")] :=
  selectChat_resets_unread_and_fetches sendState "u1" "u2" rfl rfl

/-- C1: mounting in the `incoming` state, unmounting before `getUserMedia`
resolves, and then letting the promise resolve leaves the acquired stream
(handle 1) outstanding: the cleanup ran while `localStreamRef` was still null,
so no exit path ever stops its tracks. -/
theorem unmount_during_acquisition_leaks_stream :
    (vcRun (initVC CallStatus.incoming true (some "u2"))
      [VCAct.effect, VCAct.cleanup, VCAct.mediaOk]).mounted = false ∧
    (vcRun (initVC CallStatus.incoming true (some "u2"))
      [VCAct.effect, VCAct.cleanup, VCAct.mediaOk]).acquiredStreams = [1] ∧
    (vcRun (initVC CallStatus.incoming true (some "u2"))
      [VCAct.effect, VCAct.cleanup, VCAct.mediaOk]).stoppedStreams = [] ∧
    (vcRun (initVC CallStatus.incoming true (some "u2"))
      [VCAct.effect, VCAct.cleanup, VCAct.mediaOk]).closedPCs = [0] := by
  decide

/-- C2 counterexample: with the component mounted in the `outgoing` state the
`ice-candidate` listener is registered while no peer connection exists, and a
candidate delivered then is neither applied nor buffered. -/
theorem candidate_before_pc_dropped :
    (vcRun (initVC CallStatus.outgoing true (some "u2"))
      [VCAct.effect, VCAct.recvCand 7]).listenersOn = true ∧
    (vcRun (initVC CallStatus.outgoing true (some "u2"))
      [VCAct.effect, VCAct.recvCand 7]).peerConn = none ∧
    (vcRun (initVC CallStatus.outgoing true (some "u2"))
      [VCAct.effect, VCAct.recvCand 7]).appliedCandidates = [] ∧
    (vcRun (initVC CallStatus.outgoing true (some "u2"))
      [VCAct.effect, VCAct.recvCand 7]).bufferedCandidates = [] := by
  decide

/-- C2 amended: in the `connected`/`incoming` states peer-connection creation
precedes listener registration within the effect, and candidates delivered to
the registered listener while a peer connection exists are applied; a
candidate arriving while the peer connection is null is discarded by the
handler's early return, and is never applied by any continuation that does
not redeliver it — there is no buffer. -/
theorem iceCandidate_handling :
    (∀ w : VCWorld,
      w.status = CallStatus.connected ∨ w.status = CallStatus.incoming →
      (effectRun w).peerConn ≠ none ∧ (effectRun w).listenersOn = true) ∧
    (∀ (w : VCWorld) (c : Nat), w.listenersOn = true → w.peerConn ≠ none →
      (recvIceCandidate w c).appliedCandidates = w.appliedCandidates ++ [c]) ∧
    (∀ (w : VCWorld) (c : Nat), w.peerConn = none → handleIceCandidate w c = w) ∧
    (∀ (w : VCWorld) (c : Nat) (acts : List VCAct), c ∉ w.appliedCandidates →
      VCAct.recvCand c ∉ acts → c ∉ (vcRun w acts).appliedCandidates) := by
  refine ⟨?_, ?_, ?_, ?_⟩
  · intro w h
    constructor
    · simp [effectRun, h]
    · simp [effectRun, h]
  · intro w c hl hpc
    unfold recvIceCandidate handleIceCandidate
    rw [if_pos hl]
    cases hp : w.peerConn with
    | none => exact absurd hp hpc
    | some p => rfl
  · intro w c hpc
    unfold handleIceCandidate
    rw [hpc]
  · intro w c acts hw ha
    exact vcRun_candidate_never_applied c acts w hw ha

/-- C2 witness: the amended behaviour at concrete worlds. -/
theorem iceCandidate_handling_witness :
    ((effectRun (initVC CallStatus.connected true (some "u2"))).peerConn ≠ none ∧
      (effectRun (initVC CallStatus.connected true (some "u2"))).listenersOn = true) ∧
    (recvIceCandidate (effectRun (initVC CallStatus.connected true (some "u2"))) 5
        ).appliedCandidates =
      (effectRun (initVC CallStatus.connected true (some "u2"))).appliedCandidates
        ++ [5] ∧
    handleIceCandidate (initVC CallStatus.outgoing true (some "u2")) 5 =
      initVC CallStatus.outgoing true (some "u2") ∧
    7 ∉ (vcRun (initVC CallStatus.outgoing true (some "u2"))
      [VCAct.effect, VCAct.mediaErr]).appliedCandidates :=
  ⟨iceCandidate_handling.1 _ (Or.inl rfl),
   iceCandidate_handling.2.1 _ 5 (by decide) (by decide),
   iceCandidate_handling.2.2.1 _ 5 rfl,
   iceCandidate_handling.2.2.2 _ 7 [VCAct.effect, VCAct.mediaErr]
     (by decide) (by decide)⟩

/-- C6 counterexample: after a failed media acquisition in the `incoming`
state the user is alerted but the session is not ended: the component stays
mounted with unchanged status and no `endCall` is emitted. -/
theorem mediaErr_leaves_session_active :
    (vcRun (initVC CallStatus.incoming true (some "u2"))
      [VCAct.effect, VCAct.mediaErr]).alerts = 1 ∧
    (vcRun (initVC CallStatus.incoming true (some "u2"))
      [VCAct.effect, VCAct.mediaErr]).mounted = true ∧
    (vcRun (initVC CallStatus.incoming true (some "u2"))
      [VCAct.effect, VCAct.mediaErr]).status = CallStatus.incoming ∧
    (vcRun (initVC CallStatus.incoming true (some "u2"))
      [VCAct.effect, VCAct.mediaErr]).emittedEndCall = false ∧
    (vcRun (initVC CallStatus.incoming true (some "u2"))
      [VCAct.effect, VCAct.mediaErr]).mediaRequests = 1 := by
  decide

/-- C6 amended: a failed media acquisition reports one capability-denied
alert, issues no new media request (no retry), and leaves the session state —
status, mount flag, end-call emission — unchanged. -/
theorem mediaResolveErr_alert_no_retry_no_transition (w : VCWorld)
    (h : w.pendingMedia = true) :
    (mediaResolveErr w).alerts = w.alerts + 1 ∧
    (mediaResolveErr w).status = w.status ∧
    (mediaResolveErr w).mounted = w.mounted ∧
    (mediaResolveErr w).mediaRequests = w.mediaRequests ∧
    (mediaResolveErr w).emittedEndCall = w.emittedEndCall := by
  unfold mediaResolveErr
  rw [if_pos h]
  exact ⟨rfl, rfl, rfl, rfl, rfl⟩

/-- C6 witness: the amended behaviour right after the `incoming` effect run. -/
theorem mediaResolveErr_alert_no_retry_no_transition_witness :
    (mediaResolveErr (effectRun (initVC CallStatus.incoming true (some "u2")))).alerts =
      (effectRun (initVC CallStatus.incoming true (some "u2"))).alerts + 1 ∧
    (mediaResolveErr (effectRun (initVC CallStatus.incoming true (some "u2")))).status =
      (effectRun (initVC CallStatus.incoming true (some "u2"))).status ∧
    (mediaResolveErr (effectRun (initVC CallStatus.incoming true (some "u2")))).mounted =
      (effectRun (initVC CallStatus.incoming true (some "u2"))).mounted ∧
    (mediaResolveErr (effectRun (initVC CallStatus.incoming true (some "u2")))).mediaRequests =
      (effectRun (initVC CallStatus.incoming true (some "u2"))).mediaRequests ∧
    (mediaResolveErr (effectRun (initVC CallStatus.incoming true (some "u2")))).emittedEndCall =
      (effectRun (initVC CallStatus.incoming true (some "u2"))).emittedEndCall :=
  mediaResolveErr_alert_no_retry_no_transition _ (by decide)

/-- C9: when the pairing-id query returns an empty list, `fetchMessages`
reconciles the two legacy per-user histories: the displayed result is the
reconciled list in display form; the reconciled list carries pairwise
distinct ids, is sorted by ascending timestamp, and contains exactly the
records of the union that pair the two participants and are the first
occurrence of their id. -/
theorem fetchMessages_fallback (u c : String) (r1 r2 : List RawMsg) :
    fetchMessages u c [] r1 r2 = (combineOldFormat u c r1 r2).map (displayMsg u) ∧
    (combineOldFormat u c r1 r2).Pairwise (fun a b => a.mongoId ≠ b.mongoId) ∧
    List.Sorted tsLe (combineOldFormat u c r1 r2) ∧
    (∀ m : RawMsg, m ∈ combineOldFormat u c r1 r2 ↔
      (isConversationMessage u c m = true ∧
        (r1 ++ r2).find? (fun x => x.mongoId = m.mongoId) = some m)) := by
  refine ⟨rfl, ?_, ?_, ?_⟩
  · have hperm := List.perm_insertionSort tsLe (legacyFiltered u c (r1 ++ r2))
    have hsymm : ∀ {x y : RawMsg}, x.mongoId ≠ y.mongoId → y.mongoId ≠ x.mongoId :=
      fun h hEq => h hEq.symm
    exact (List.Perm.pairwise_iff hsymm hperm).mpr
      (pairwise_ne_legacyFiltered u c (r1 ++ r2))
  · exact List.sorted_insertionSort tsLe (legacyFiltered u c (r1 ++ r2))
  · intro m
    unfold combineOldFormat
    rw [List.mem_insertionSort]
    exact mem_legacyFiltered_iff u c (r1 ++ r2) m

/-- C10 witness: the padding equation at a concrete duration. -/
theorem formatDuration_pads_div_mod_witness :
    formatDuration 65 = formatDurationSpec 65 :=
  formatDuration_pads_div_mod.1 65

/-- Concrete legacy record: `u1` to `u2`, id `a`. -/
def rawMsgA : RawMsg :=
  { mongoId := "a", userId := "u1", chatId := "u2", text := "one", timestamp := 5 }

/-- Concrete legacy record: `u2` to `u1`, id `b`. -/
def rawMsgB : RawMsg :=
  { mongoId := "b", userId := "u2", chatId := "u1", text := "two", timestamp := 3 }

/-- Concrete legacy record not pairing `u1` with `u2`. -/
def rawMsgX : RawMsg :=
  { mongoId := "x", userId := "u9", chatId := "u2", text := "zz", timestamp := 1 }

/-- C9 witness: the fallback equations at concrete legacy histories in which
id `a` occurs twice and record `x` pairs the wrong users. -/
theorem fetchMessages_fallback_witness :
    fetchMessages "u1" "u2" [] [rawMsgA, rawMsgX] [rawMsgB, rawMsgA] =
      (combineOldFormat "u1" "u2" [rawMsgA, rawMsgX] [rawMsgB, rawMsgA]).map
        (displayMsg "u1") ∧
    (rawMsgA ∈ combineOldFormat "u1" "u2" [rawMsgA, rawMsgX] [rawMsgB, rawMsgA] ↔
      (isConversationMessage "u1" "u2" rawMsgA = true ∧
        ([rawMsgA, rawMsgX] ++ [rawMsgB, rawMsgA]).find?
          (fun x => x.mongoId = rawMsgA.mongoId) = some rawMsgA)) :=
  ⟨(fetchMessages_fallback "u1" "u2" [rawMsgA, rawMsgX] [rawMsgB, rawMsgA]).1,
   (fetchMessages_fallback "u1" "u2" [rawMsgA, rawMsgX] [rawMsgB, rawMsgA]).2.2.2
     rawMsgA⟩
